import Mathlib

/-!
Shallow embedding of the offline-first local-cache / sync engine of the
consignment-intake application (sources: `src/react-intake/src/db/syncService.ts`
together with its inlined `localDb` layer, and the local-first variant of
`src/react-intake/src/db/index.ts`).

Modelling conventions:
* TypeScript optional / nullable string fields become `Option String`; the
  JavaScript `x || fallback` idiom on strings is modelled by `jsOr` /
  `orNullStr` (the empty string is falsy, so `"" || null` is `null`).
* Wall-clock timestamps (`Date.now()`, `updated_at` rows) are integers
  (milliseconds).  ISO-8601 serialisation of a millisecond timestamp followed
  by `new Date(...)` parsing is information-preserving, so serialised dates
  are carried as the timestamp itself.
* The IndexedDB `forms` object store (keyed by `localId`) is a list of
  `LocalForm`; `put` is an upsert by key, `get` a `find?` by key.
* The `syncQueue` object store (auto-incrementing primary key) is a list of
  `SyncQueueItem` plus a `nextId` counter; the `by-timestamp` index listing is
  an insertion sort by `(timestamp, id)`.
* Network effects: the outcome of one remote transmission is an oracle
  `transmit : SyncQueueItem → Option String` (`none` = success, `some e` =
  failure with message `e`), matching the fact that the drain loop only
  branches on success / failure / error-message of each request.
-/

namespace Intake

/-- `'new' | 'existing'` (`consignerType`). -/
inductive ConsignerType where
  | isNew : ConsignerType
  | existing : ConsignerType
deriving DecidableEq

/-- `'draft' | 'signed'` (`status`). -/
inductive FormStatus where
  | draft : FormStatus
  | signed : FormStatus
deriving DecidableEq

/-- `'detection' | 'general' | 'email'` (`intakeMode`, nullable at use sites). -/
inductive IntakeMode where
  | detection : IntakeMode
  | general : IntakeMode
  | email : IntakeMode
deriving DecidableEq

/-- `'Accept' | 'Reject'` (item status). -/
inductive ItemStatus where
  | accept : ItemStatus
  | reject : ItemStatus
deriving DecidableEq

/-- `IntakeItem` from `types.ts`: one line item, photos as data-URI strings. -/
structure IntakeItem where
  id : String
  name : String
  notes : String
  quantity : Int
  price : Int
  status : ItemStatus
  condition : String
  category : String
  dimensions : String
  photos : List String
deriving DecidableEq

/-- `Record<FieldId, boolean>` (`enabledFields`): one flag per field id. -/
structure EnabledFields where
  name : Bool
  notes : Bool
  quantity : Bool
  price : Bool
  priceStatus : Bool
  condition : Bool
  category : Bool
  dimensions : Bool
deriving DecidableEq

/-- `IntakeForm` from `types.ts` (the Record of the spec). -/
structure IntakeForm where
  id : String
  consignerType : ConsignerType
  consignerName : String
  consignerNumber : Option String
  consignerAddress : Option String
  consignerPhone : Option String
  consignerEmail : Option String
  intakeMode : Option IntakeMode
  items : List IntakeItem
  enabledFields : Option EnabledFields
  status : FormStatus
  signatureData : Option String
  initials1 : Option String
  initials2 : Option String
  initials3 : Option String
  signatureDate : Option String
  acceptedBy : Option String
  createdAt : Int
  updatedAt : Int
  signedAt : Option Int
deriving DecidableEq

/-- JavaScript `s || null` / `s || undefined` on an optional string: the empty
string is falsy and collapses to the absent value. -/
def orNullStr (s : Option String) : Option String :=
  match s with
  | none => none
  | some v => if v = "" then none else some v

/-- JavaScript `a || b` on two plain strings. -/
def jsOr (a b : String) : String := if a = "" then b else a

/-! ## Record Codec (`processSyncItem` insert/update payload, `mapRemoteToLocal`) -/

/-- The columns the push engine sets when inserting/updating a remote row
(`processSyncItem`, CREATE/UPDATE branches).  `created_at` / `updated_at` are
not among them: the remote store assigns those. -/
structure InsertRow where
  id : String
  consigner_type : ConsignerType
  consigner_name : String
  consigner_number : Option String
  consigner_address : Option String
  consigner_phone : Option String
  consigner_email : Option String
  intake_mode : Option IntakeMode
  status : FormStatus
  items : List IntakeItem
  enabled_fields : Option EnabledFields
  signature_data : Option String
  initials_1 : Option String
  initials_2 : Option String
  initials_3 : Option String
  accepted_by : Option String
  signed_at : Option Int
deriving DecidableEq

/-- The remote row shape (`RemoteForm` interface): the insert columns plus the
server-assigned `created_at` / `updated_at`. -/
structure RemoteForm where
  row : InsertRow
  created_at : Int
  updated_at : Int
deriving DecidableEq

/-- The field mapping of the CREATE/UPDATE branches of `processSyncItem`
(local camel-case record to remote snake-case columns).  `JSON.parse ∘
JSON.stringify` on the plain-data item list is the identity. -/
def toRemoteShape (form : IntakeForm) : InsertRow :=
  { id := form.id
    consigner_type := form.consignerType
    consigner_name := jsOr form.consignerName ""
    consigner_number := orNullStr form.consignerNumber
    consigner_address := orNullStr form.consignerAddress
    consigner_phone := orNullStr form.consignerPhone
    consigner_email := orNullStr form.consignerEmail
    intake_mode := form.intakeMode
    status := form.status
    items := form.items
    enabled_fields := form.enabledFields
    signature_data := orNullStr form.signatureData
    initials_1 := orNullStr form.initials1
    initials_2 := orNullStr form.initials2
    initials_3 := orNullStr form.initials3
    accepted_by := orNullStr form.acceptedBy
    signed_at := form.signedAt }

/-- Completion of an inserted row by the remote store: it keeps every column
the client sent and assigns the two server-side timestamps. -/
def serverComplete (r : InsertRow) (created updated : Int) : RemoteForm :=
  { row := r, created_at := created, updated_at := updated }

/-- `mapRemoteToLocal` from `syncService.ts`: remote row back to the local
record shape.  `signatureDate` is not produced (no such remote column). -/
def mapRemoteToLocal (data : RemoteForm) : IntakeForm :=
  { id := data.row.id
    consignerType := data.row.consigner_type
    consignerName := data.row.consigner_name
    consignerNumber := orNullStr data.row.consigner_number
    consignerAddress := orNullStr data.row.consigner_address
    consignerPhone := orNullStr data.row.consigner_phone
    consignerEmail := orNullStr data.row.consigner_email
    intakeMode := data.row.intake_mode
    items := data.row.items
    enabledFields := data.row.enabled_fields
    status := data.row.status
    signatureData := orNullStr data.row.signature_data
    initials1 := orNullStr data.row.initials_1
    initials2 := orNullStr data.row.initials_2
    initials3 := orNullStr data.row.initials_3
    signatureDate := none
    acceptedBy := orNullStr data.row.accepted_by
    createdAt := data.created_at
    updatedAt := data.updated_at
    signedAt := data.row.signed_at }

/-! ## Local Store (`localDb`) -/

/-- `LocalForm`: the record plus sync metadata (`localDb.ts`).  The spread
`{...form, localId, remoteId, synced, syncedAt, localUpdatedAt}` is modelled by
keeping the `IntakeForm` as the `form` component. -/
structure LocalForm where
  form : IntakeForm
  localId : String
  remoteId : Option String
  synced : Bool
  syncedAt : Option Int
  localUpdatedAt : Int
deriving DecidableEq

/-- `'CREATE' | 'UPDATE' | 'DELETE'`. -/
inductive SyncOp where
  | create : SyncOp
  | update : SyncOp
  | delete : SyncOp
deriving DecidableEq

/-- Queue entry payload: a record snapshot for create/update, the
`{ remoteId }` object for delete. -/
inductive SyncPayload where
  | form : IntakeForm → SyncPayload
  | del : String → SyncPayload
deriving DecidableEq

/-- `SyncQueueItem` (`localDb.ts`): one pending mutation. -/
structure SyncQueueItem where
  id : Nat
  type : SyncOp
  localId : String
  payload : SyncPayload
  timestamp : Int
  retryCount : Nat
  lastAttemptTime : Option Int
  error : Option String
deriving DecidableEq

/-- The `syncQueue` object store: rows plus the auto-increment counter. -/
structure Queue where
  items : List SyncQueueItem
  nextId : Nat
deriving DecidableEq

/-- The durable local database: the `forms` store and the `syncQueue` store. -/
structure DbState where
  forms : List LocalForm
  queue : Queue
deriving DecidableEq

/-- `db.get('forms', id)`: lookup by the `localId` key. -/
def getForm (forms : List LocalForm) (id : String) : Option LocalForm :=
  forms.find? (fun f => f.localId = id)

/-- `db.put('forms', f)`: upsert keyed by `localId`. -/
def putForm (forms : List LocalForm) (f : LocalForm) : List LocalForm :=
  if forms.any (fun g => g.localId = f.localId) then
    forms.map (fun g => if g.localId = f.localId then f else g)
  else
    forms ++ [f]

/-- Everything `addToSyncQueue` receives (all `SyncQueueItem` fields except the
auto-assigned primary key). -/
structure NewQueueItem where
  type : SyncOp
  localId : String
  payload : SyncPayload
  timestamp : Int
  retryCount : Nat
  lastAttemptTime : Option Int
  error : Option String
deriving DecidableEq

/-- `addToSyncQueue` (`localDb.ts`): deletes every existing entry with the same
`localId` AND the same `type`, then appends the new entry under a fresh
auto-increment key. -/
def addToSyncQueue (q : Queue) (item : NewQueueItem) : Queue :=
  let kept := q.items.filter
    (fun i => ¬ (i.localId = item.localId ∧ i.type = item.type))
  { items := kept ++ [{ id := q.nextId, type := item.type, localId := item.localId
                        payload := item.payload, timestamp := item.timestamp
                        retryCount := item.retryCount
                        lastAttemptTime := item.lastAttemptTime
                        error := item.error }]
    nextId := q.nextId + 1 }

/-- Ordering of the `by-timestamp` IndexedDB index: ascending timestamp, ties
by ascending primary key. -/
def tsLe (a b : SyncQueueItem) : Bool :=
  a.timestamp < b.timestamp ∨ (a.timestamp = b.timestamp ∧ a.id ≤ b.id)

/-- Insertion step of the index-order sort. -/
def insertTs (x : SyncQueueItem) : List SyncQueueItem → List SyncQueueItem
  | [] => [x]
  | y :: ys => if tsLe x y then x :: y :: ys else y :: insertTs x ys

/-- `getPendingSyncItems` / `getAllFromIndex('syncQueue', 'by-timestamp')`:
the queue rows in index order. -/
def getPendingSyncItems (q : Queue) : List SyncQueueItem :=
  q.items.foldr insertTs []

/-- `removeSyncQueueItem`: delete a queue row by primary key. -/
def removeSyncQueueItem (q : Queue) (id : Nat) : Queue :=
  { q with items := q.items.filter (fun i => i.id ≠ id) }

/-- `incrementSyncItemRetry`: bump the retry counter, stamp the attempt time
and the error message on the row with the given key. -/
def incrementSyncItemRetry (q : Queue) (id : Nat) (err : String) (now : Int) :
    Queue :=
  { q with items := q.items.map (fun i =>
      if i.id = id then
        { i with retryCount := i.retryCount + 1, lastAttemptTime := some now
                 error := some err }
      else i) }

/-- `MAX_RETRIES` and the `BACKOFF_MS` schedule of `shouldRetryItem`. -/
def BACKOFF_MS : List Int := [1000, 5000, 15000, 60000, 300000]

/-- `BACKOFF_MS[retryCount] || BACKOFF_MS[BACKOFF_MS.length - 1]` (every
schedule entry is non-zero, so `||` is exactly the out-of-range fallback). -/
def backoffTime (retryCount : Nat) : Int :=
  (BACKOFF_MS.get? retryCount).getD 300000

/-- `shouldRetryItem` (`localDb.ts`): false once the retry counter reaches 5,
false within the backoff window of a previously attempted item, else true. -/
def shouldRetryItem (now : Int) (item : SyncQueueItem) : Bool :=
  if item.retryCount ≥ 5 then false
  else
    match item.lastAttemptTime with
    | some t => if now - t < backoffTime item.retryCount then false else true
    | none => true

/-- `markFormSynced` (`localDb.ts`): if a form exists under `localId`, set its
synced flag, remote id and synced-at stamp; otherwise do nothing. -/
def markFormSynced (forms : List LocalForm) (localId remoteId : String)
    (now : Int) : List LocalForm :=
  match getForm forms localId with
  | some f =>
      putForm forms { f with synced := true, remoteId := some remoteId
                             syncedAt := some now }
  | none => forms

/-- `saveFormLocally` (`localDb.ts`): upsert the record (always `synced :=
false`, carrying over only a previously known remote id), then enqueue a
CREATE (no prior local copy) or UPDATE (prior copy exists) mutation. -/
def saveFormLocally (st : DbState) (form : IntakeForm) (now : Int) : DbState :=
  let existing := getForm st.forms form.id
  let localForm : LocalForm :=
    { form := form, localId := form.id
      remoteId := existing.bind (fun e => e.remoteId)
      synced := false, syncedAt := none, localUpdatedAt := now }
  { forms := putForm st.forms localForm
    queue := addToSyncQueue st.queue
      { type := if existing.isSome then SyncOp.update else SyncOp.create
        localId := form.id, payload := SyncPayload.form form
        timestamp := now, retryCount := 0
        lastAttemptTime := none, error := none } }

/-- `getFormLocally`. -/
def getFormLocally (st : DbState) (formId : String) : Option LocalForm :=
  getForm st.forms formId

/-- `deleteFormLocally` (`localDb.ts`): remove the record; enqueue a DELETE
mutation only when the record carried a remote id. -/
def deleteFormLocally (st : DbState) (formId : String) (now : Int) : DbState :=
  match getForm st.forms formId with
  | none => st
  | some existing =>
      let forms' := st.forms.filter (fun f => f.localId ≠ formId)
      match existing.remoteId with
      | some rid =>
          { forms := forms'
            queue := addToSyncQueue st.queue
              { type := SyncOp.delete, localId := formId
                payload := SyncPayload.del rid, timestamp := now
                retryCount := 0, lastAttemptTime := none, error := none } }
      | none => { forms := forms', queue := st.queue }

/-- `getUnsyncedCount` (`localDb.ts`): rows of the `forms` store whose
`by-sync-status` index value is `false`. -/
def getUnsyncedCount (forms : List LocalForm) : Nat :=
  (forms.filter (fun f => f.synced = false)).length

/-- `updateFormFromRemote` (`localDb.ts`): merge one remote record.  A local
copy with unsynced changes and a strictly newer local mutation time is kept;
otherwise the remote version is written and marked synced. -/
def updateFormFromRemote (st : DbState) (remoteForm : IntakeForm) (now : Int) :
    DbState :=
  let existing := st.forms.find? (fun f =>
    f.remoteId = some remoteForm.id ∨ f.localId = remoteForm.id)
  let mkLocal : String → LocalForm := fun lid =>
    { form := remoteForm, localId := lid, remoteId := some remoteForm.id
      synced := true, syncedAt := some now, localUpdatedAt := now }
  match existing with
  | some f =>
      if f.synced = false ∧ f.localUpdatedAt > remoteForm.updatedAt then st
      else
        { st with forms := putForm st.forms (mkLocal (jsOr f.localId remoteForm.id)) }
  | none =>
      { st with forms := putForm st.forms (mkLocal remoteForm.id) }

/-! ## Push Engine (`syncService.ts`) -/

/-- `validateForm`: a create/update payload must carry a non-empty id and —
depending on the consigner classification — a non-blank name (new) or a
non-empty consigner number (existing).  Returns the error string on failure
(`none` = valid). -/
def validateForm (form : IntakeForm) : Option String :=
  if form.id = "" then some "Missing form ID"
  else
    match form.consignerType with
    | ConsignerType.isNew =>
        if form.consignerName.trim = "" then some "New consigner requires name"
        else none
    | ConsignerType.existing =>
        match form.consignerNumber with
        | none => some "Existing consigner requires number"
        | some n =>
            if n = "" then some "Existing consigner requires number" else none

/-- Outcome of one transmission attempt against the remote store:
`none` = success, `some e` = failure with error message `e`.  For DELETE the
"row already absent" case is a success by construction (the code filters the
not-found error code). -/
abbrev Transmit := SyncQueueItem → Option String

/-- `processSyncItem`: validate and transmit one queue entry.  On create/update
success the local record is marked synced (the remote row echoes the record's
own id); on any failure the entry's retry metadata is bumped.  Returns the
updated database and the success flag. -/
def processSyncItem (tr : Transmit) (db : DbState) (item : SyncQueueItem)
    (now : Int) : DbState × Bool :=
  match item.type with
  | SyncOp.create | SyncOp.update =>
      match item.payload with
      | SyncPayload.form form =>
          match validateForm form with
          | some err =>
              ({ db with queue := incrementSyncItemRetry db.queue item.id err now },
               false)
          | none =>
              match tr item with
              | none =>
                  ({ db with
                      forms := markFormSynced db.forms item.localId form.id now },
                   true)
              | some err =>
                  ({ db with
                      queue := incrementSyncItemRetry db.queue item.id err now },
                   false)
      | SyncPayload.del _ =>
          -- the payload cast `item.payload as IntakeForm` yields no id, so
          -- validation fails with the missing-id error
          ({ db with
              queue := incrementSyncItemRetry db.queue item.id "Missing form ID" now },
           false)
  | SyncOp.delete =>
      match tr item with
      | none => (db, true)
      | some err =>
          ({ db with queue := incrementSyncItemRetry db.queue item.id err now },
           false)

/-- Accumulated result of a drain pass: the database plus the success/failed
counters of `processSyncQueue`, and (book-keeping for the statements) the keys
of the entries that were handed to `processSyncItem`. -/
structure PassResult where
  db : DbState
  success : Nat
  failed : Nat
  attempted : List Nat
deriving DecidableEq

/-- One iteration of the drain loop of `processSyncQueue` on a snapshot entry:
skip (and, at the retry cap, permanently drop) entries the backoff check
refuses, otherwise process and on success remove the entry. -/
def syncPassStep (tr : Transmit) (now : Int) (acc : PassResult)
    (item : SyncQueueItem) : PassResult :=
  if shouldRetryItem now item then
    let r := processSyncItem tr acc.db item now
    if r.2 then
      { db := { forms := r.1.forms
                queue := removeSyncQueueItem r.1.queue item.id }
        success := acc.success + 1, failed := acc.failed
        attempted := acc.attempted ++ [item.id] }
    else
      { db := r.1, success := acc.success, failed := acc.failed + 1
        attempted := acc.attempted ++ [item.id] }
  else
    if item.retryCount ≥ 5 then
      { acc with db := { acc.db with queue := removeSyncQueueItem acc.db.queue item.id } }
    else acc

/-- The drain pass body of `processSyncQueue`: snapshot the pending listing,
then run the loop over it. -/
def runSyncPass (tr : Transmit) (db : DbState) (now : Int) : PassResult :=
  (getPendingSyncItems db.queue).foldl (syncPassStep tr now)
    { db := db, success := 0, failed := 0, attempted := [] }

/-- `processSyncQueue`: returns immediately when offline or unconfigured,
otherwise runs one drain pass (the single-flight promise lock is the
concurrency wrapper around this body). -/
def processSyncQueue (online configured : Bool) (tr : Transmit) (db : DbState)
    (now : Int) : PassResult :=
  if online ∧ configured then runSyncPass tr db now
  else { db := db, success := 0, failed := 0, attempted := [] }

/-- The status feed record (`SyncStatus` in `syncService.ts`). -/
structure SyncStatus where
  isOnline : Bool
  isSyncing : Bool
  pendingCount : Nat
  lastSyncTime : Option Int
  lastError : Option String
deriving DecidableEq

/-- `getCurrentSyncStatus`: the pending count it reports is
`getUnsyncedCount`, i.e. the number of local records still marked unsynced. -/
def getCurrentSyncStatus (online syncing : Bool) (lastSync : Option Int)
    (lastErr : Option String) (forms : List LocalForm) : SyncStatus :=
  { isOnline := online, isSyncing := syncing
    pendingCount := getUnsyncedCount forms
    lastSyncTime := lastSync, lastError := lastErr }

/-! ## Record CRUD API (local-first `db/index.ts`) -/

/-- `localFormToIntakeForm` (`db/index.ts`): project the stored `LocalForm`
back to an `IntakeForm`.  It copies every record field except `signatureDate`
(absent from its field list) and takes the id from the storage key. -/
def localFormToIntakeForm (lf : LocalForm) : IntakeForm :=
  { lf.form with id := lf.localId, signatureDate := none }

/-- `saveForm` (`db/index.ts`): always save locally first; the background
sync trigger is network activity outside this synchronous contract. -/
def saveForm (st : DbState) (form : IntakeForm) (now : Int) : DbState :=
  saveFormLocally st form now

/-- `loadForm` (`db/index.ts`): resolve from the local store. -/
def loadForm (st : DbState) (formId : String) : Option IntakeForm :=
  (getFormLocally st formId).map localFormToIntakeForm

/-! ## Store lemmas -/

theorem find?_map_upsert (fs : List LocalForm) (g : LocalForm)
    (h : fs.any (fun f => f.localId = g.localId) = true) :
    (fs.map (fun x => if x.localId = g.localId then g else x)).find?
      (fun f => f.localId = g.localId) = some g := by
  induction fs with
  | nil => simp at h
  | cons x xs ih =>
      by_cases hx : x.localId = g.localId
      · simp [List.find?_cons, hx]
      · have h' : xs.any (fun f => f.localId = g.localId) = true := by
          simpa [List.any_cons, hx] using h
        simp [List.find?_cons, hx, ih h']

theorem find?_append_new (fs : List LocalForm) (g : LocalForm)
    (h : ∀ f ∈ fs, ¬ f.localId = g.localId) :
    (fs ++ [g]).find? (fun f => f.localId = g.localId) = some g := by
  induction fs with
  | nil => simp [List.find?_cons]
  | cons x xs ih =>
      have hx := h x (List.mem_cons_self x xs)
      simp only [List.cons_append, List.find?_cons, decide_eq_true_eq, hx, if_false]
      exact ih (fun f hf => h f (List.mem_cons_of_mem x hf))

/-- Reading back the key just written: `get` after `put` returns the new
value. -/
theorem getForm_putForm (fs : List LocalForm) (g : LocalForm) :
    getForm (putForm fs g) g.localId = some g := by
  unfold getForm putForm
  by_cases h : fs.any (fun f => f.localId = g.localId) = true
  · simpa [h] using find?_map_upsert fs g h
  · have h' : ∀ f ∈ fs, ¬ f.localId = g.localId := by
      intro f hf hc
      exact h (List.any_eq_true.2 ⟨f, hf, by simp [hc]⟩)
    have hb : fs.any (fun f => f.localId = g.localId) = false := by
      simpa using h
    simpa [hb] using find?_append_new fs g h'

/-! ## Sample data for witnesses and counterexamples -/

/-- A small concrete record used to instantiate theorems. -/
def baseForm : IntakeForm :=
  { id := "a1", consignerType := ConsignerType.isNew, consignerName := "Lamp"
    consignerNumber := none, consignerAddress := none, consignerPhone := none
    consignerEmail := none, intakeMode := none, items := []
    enabledFields := none, status := FormStatus.draft, signatureData := none
    initials1 := none, initials2 := none, initials3 := none
    signatureDate := none, acceptedBy := none, createdAt := 0, updatedAt := 90
    signedAt := none }

/-- A stored copy of `baseForm` with unsynced local changes at time 100. -/
def basePendingLocal : LocalForm :=
  { form := baseForm, localId := "a1", remoteId := some "a1", synced := false
    syncedAt := none, localUpdatedAt := 100 }

/-! ## Claims about the Pull/Merge engine -/

/-- C10: `markFormSynced` on an identifier with no local record leaves the
forms store unchanged — a record deleted locally while its queue entry was in
flight is never re-inserted by the push success path. -/
theorem markFormSynced_absent_noop (forms : List LocalForm)
    (localId remoteId : String) (now : Int)
    (h : getForm forms localId = none) :
    markFormSynced forms localId remoteId now = forms := by
  unfold markFormSynced
  rw [h]

theorem markFormSynced_absent_noop_witness :
    markFormSynced [] "f1" "remote-1" 42 = [] :=
  markFormSynced_absent_noop [] "f1" "remote-1" 42 rfl

/-- Helper: the early-return branch of `updateFormFromRemote` (unsynced local
copy with a strictly newer local mutation time). -/
theorem merge_keep_local (st : DbState) (remoteForm : IntakeForm) (now : Int)
    (f : LocalForm)
    (hfind : st.forms.find? (fun g =>
      g.remoteId = some remoteForm.id ∨ g.localId = remoteForm.id) = some f)
    (hpending : f.synced = false)
    (hlt : f.localUpdatedAt > remoteForm.updatedAt) :
    updateFormFromRemote st remoteForm now = st := by
  unfold updateFormFromRemote
  simp only [hfind, hpending, hlt, and_self, if_true]

/-- Helper: the overwrite branch of `updateFormFromRemote` for an existing
local copy (remote newer or equal, or local already synced). -/
theorem merge_overwrite (st : DbState) (remoteForm : IntakeForm) (now : Int)
    (f : LocalForm)
    (hfind : st.forms.find? (fun g =>
      g.remoteId = some remoteForm.id ∨ g.localId = remoteForm.id) = some f)
    (hn : ¬ (f.synced = false ∧ f.localUpdatedAt > remoteForm.updatedAt)) :
    getForm (updateFormFromRemote st remoteForm now).forms
        (jsOr f.localId remoteForm.id) =
      some { form := remoteForm, localId := jsOr f.localId remoteForm.id
             remoteId := some remoteForm.id, synced := true
             syncedAt := some now, localUpdatedAt := now } := by
  unfold updateFormFromRemote
  simp only [hfind, hn, if_false]
  exact getForm_putForm st.forms _

/-- C1: merging a remote record against an existing unsynced local record is
last-writer-wins: a strictly newer local mutation time keeps the whole store
unchanged, while a remote last-modified time that is newer or equal makes the
store hold the remote payload under the local key with sync status synced. -/
theorem updateFormFromRemote_lww (st : DbState) (remoteForm : IntakeForm)
    (now : Int) (f : LocalForm)
    (hfind : st.forms.find? (fun g =>
      g.remoteId = some remoteForm.id ∨ g.localId = remoteForm.id) = some f)
    (hpending : f.synced = false) :
    (f.localUpdatedAt > remoteForm.updatedAt →
       updateFormFromRemote st remoteForm now = st) ∧
    (remoteForm.updatedAt ≥ f.localUpdatedAt →
       getForm (updateFormFromRemote st remoteForm now).forms
           (jsOr f.localId remoteForm.id) =
         some { form := remoteForm, localId := jsOr f.localId remoteForm.id
                remoteId := some remoteForm.id, synced := true
                syncedAt := some now, localUpdatedAt := now }) := by
  constructor
  · intro hlt
    exact merge_keep_local st remoteForm now f hfind hpending hlt
  · intro hge
    have hn : ¬ (f.synced = false ∧ f.localUpdatedAt > remoteForm.updatedAt) := by
      rintro ⟨_, hgt⟩
      omega
    exact merge_overwrite st remoteForm now f hfind hn

theorem updateFormFromRemote_lww_witness :
    (updateFormFromRemote ⟨[basePendingLocal], ⟨[], 0⟩⟩
        { baseForm with consignerName := "Lamp (remote edit)", updatedAt := 90 } 7 =
      ⟨[basePendingLocal], ⟨[], 0⟩⟩) ∧
    (getForm (updateFormFromRemote ⟨[basePendingLocal], ⟨[], 0⟩⟩
        { baseForm with consignerName := "Lamp (remote edit)", updatedAt := 150 } 7).forms
        "a1" =
      some { form := { baseForm with consignerName := "Lamp (remote edit)", updatedAt := 150 }
             localId := "a1", remoteId := some "a1", synced := true
             syncedAt := some 7, localUpdatedAt := 7 }) := by
  constructor
  · exact (updateFormFromRemote_lww ⟨[basePendingLocal], ⟨[], 0⟩⟩
      { baseForm with consignerName := "Lamp (remote edit)", updatedAt := 90 } 7
      basePendingLocal (by decide) (by decide)).1 (by decide)
  · exact (updateFormFromRemote_lww ⟨[basePendingLocal], ⟨[], 0⟩⟩
      { baseForm with consignerName := "Lamp (remote edit)", updatedAt := 150 } 7
      basePendingLocal (by decide) (by decide)).2 (by decide)

/-- C4 fails as stated: a *synced* local record whose payload is signed is
overwritten by an incoming remote draft even when the remote last-modified
time is older — the conflict check only guards unsynced records.  At this
concrete input the store afterwards holds the stale remote draft. -/
theorem signed_overwritten_cex :
    ((getForm (updateFormFromRemote
          ⟨[{ basePendingLocal with
                form := { baseForm with status := FormStatus.signed, updatedAt := 80 }
                synced := true }], ⟨[], 0⟩⟩
          { baseForm with status := FormStatus.draft, updatedAt := 90 } 200).forms
        "a1").map (fun g => (g.form.status, g.form.updatedAt)) =
      some (FormStatus.draft, 90)) ∧
    ¬ (updateFormFromRemote
          ⟨[{ basePendingLocal with
                form := { baseForm with status := FormStatus.signed, updatedAt := 80 }
                synced := true }], ⟨[], 0⟩⟩
          { baseForm with status := FormStatus.draft, updatedAt := 90 } 200 =
        ⟨[{ basePendingLocal with
              form := { baseForm with status := FormStatus.signed, updatedAt := 80 }
              synced := true }], ⟨[], 0⟩⟩) := by
  constructor
  · decide
  · decide

/-- C4 (amended): the sync engine never overwrites a signed local record that
still has unsynced changes and a strictly newer local mutation time with a
stale remote draft; a signed local record already marked synced enjoys no such
protection. -/
theorem signed_pending_protected (st : DbState) (remoteForm : IntakeForm)
    (now : Int) (f : LocalForm)
    (hfind : st.forms.find? (fun g =>
      g.remoteId = some remoteForm.id ∨ g.localId = remoteForm.id) = some f)
    (_hsigned : f.form.status = FormStatus.signed)
    (_hdraft : remoteForm.status = FormStatus.draft)
    (hpending : f.synced = false)
    (hstale : f.localUpdatedAt > remoteForm.updatedAt) :
    updateFormFromRemote st remoteForm now = st :=
  merge_keep_local st remoteForm now f hfind hpending hstale

theorem signed_pending_protected_witness :
    updateFormFromRemote
        ⟨[{ basePendingLocal with
              form := { baseForm with status := FormStatus.signed } }], ⟨[], 0⟩⟩
        { baseForm with status := FormStatus.draft, updatedAt := 90 } 200 =
      ⟨[{ basePendingLocal with
            form := { baseForm with status := FormStatus.signed } }], ⟨[], 0⟩⟩ :=
  signed_pending_protected _ _ 200
    { basePendingLocal with form := { baseForm with status := FormStatus.signed } }
    (by decide) (by decide) (by decide) (by decide) (by decide)

/-! ## Queue lemmas -/

theorem getForm_filter_self (fs : List LocalForm) (fid : String) :
    getForm (fs.filter (fun f => f.localId ≠ fid)) fid = none := by
  unfold getForm
  rw [List.find?_eq_none]
  intro x hx
  have hm := (List.mem_filter.1 hx).2
  simp only [decide_eq_true_eq] at hm ⊢
  exact hm

/-- The fresh row `addToSyncQueue` constructs. -/
def freshQueueItem (q : Queue) (it : NewQueueItem) : SyncQueueItem :=
  { id := q.nextId, type := it.type, localId := it.localId
    payload := it.payload, timestamp := it.timestamp
    retryCount := it.retryCount, lastAttemptTime := it.lastAttemptTime
    error := it.error }

/-- When every pre-existing entry for the target identifier has the kind being
enqueued, the per-(identifier, kind) deduplication clears them all and the new
entry is the only one left for that identifier. -/
theorem addToSyncQueue_entriesFor (q : Queue) (it : NewQueueItem)
    (hclean : ∀ i ∈ q.items, i.localId = it.localId → i.type = it.type) :
    (addToSyncQueue q it).items.filter (fun i => i.localId = it.localId) =
      [freshQueueItem q it] := by
  unfold addToSyncQueue freshQueueItem
  simp only [List.filter_append, List.filter_filter]
  have h1 : q.items.filter (fun i =>
      decide (i.localId = it.localId) &&
      decide (¬ (i.localId = it.localId ∧ i.type = it.type))) = [] := by
    rw [List.filter_eq_nil_iff]
    intro a ha
    by_cases hl : a.localId = it.localId
    · have ht := hclean a ha hl
      simp [hl, ht]
    · simp [hl]
  rw [h1]
  simp

/-- When no pre-existing entry for the target identifier has the kind being
enqueued, deduplication removes nothing for that identifier and the new entry
is appended after the surviving ones. -/
theorem addToSyncQueue_entriesFor_keep (q : Queue) (it : NewQueueItem)
    (hkeep : ∀ i ∈ q.items, i.localId = it.localId → ¬ i.type = it.type) :
    (addToSyncQueue q it).items.filter (fun i => i.localId = it.localId) =
      q.items.filter (fun i => i.localId = it.localId) ++ [freshQueueItem q it] := by
  unfold addToSyncQueue freshQueueItem
  simp only [List.filter_append, List.filter_filter]
  have h1 : q.items.filter (fun i =>
      decide (i.localId = it.localId) &&
      decide (¬ (i.localId = it.localId ∧ i.type = it.type))) =
      q.items.filter (fun i => i.localId = it.localId) := by
    apply List.filter_congr
    intro a ha
    by_cases hl : a.localId = it.localId
    · have ht := hkeep a ha hl
      simp [hl, ht]
    · simp [hl]
  rw [h1]
  simp

/-! ## Claims about the Sync Queue Manager -/

/-- C2 fails as stated: saving a fresh record and then saving it again (before
any drain) enqueues a CREATE and then an UPDATE; the deduplication in
`addToSyncQueue` matches on (identifier, kind), so the CREATE survives and two
live create/update entries exist for the same identifier. -/
theorem create_then_update_two_entries_cex :
    (((saveFormLocally (saveFormLocally ⟨[], ⟨[], 0⟩⟩ baseForm 10)
          { baseForm with consignerName := "Lamp 2" } 20).queue.items.filter
        (fun i => i.localId = "a1")).map (fun i => i.type) =
      [SyncOp.create, SyncOp.update]) ∧
    ¬ ((saveFormLocally (saveFormLocally ⟨[], ⟨[], 0⟩⟩ baseForm 10)
          { baseForm with consignerName := "Lamp 2" } 20).queue.items.filter
        (fun i => i.localId = "a1")).length = 1 := by
  constructor
  · decide
  · decide

/-- C2 (amended): deduplication is per (identifier, kind): enqueueing a
mutation removes prior entries of the same kind only.  In particular saving a
record that already has a local copy twice in succession — two UPDATE
mutations — leaves exactly one queue entry for that identifier, carrying the
second payload (a prior CREATE for a fresh record would instead survive next
to the UPDATE). -/
theorem enqueue_update_twice_dedup (st : DbState) (f1 f2 : IntakeForm)
    (x : String) (t1 t2 : Int) (hx1 : f1.id = x) (hx2 : f2.id = x)
    (hexist : (getForm st.forms x).isSome = true)
    (hclean : ∀ i ∈ st.queue.items, ¬ i.localId = x) :
    ((saveFormLocally (saveFormLocally st f1 t1) f2 t2).queue.items.filter
        (fun i => i.localId = x)).map (fun i => (i.type, i.payload)) =
      [(SyncOp.update, SyncPayload.form f2)] := by
  have hq1 : (saveFormLocally st f1 t1).queue =
      addToSyncQueue st.queue
        { type := if (getForm st.forms f1.id).isSome then SyncOp.update
                  else SyncOp.create
          localId := f1.id, payload := SyncPayload.form f1
          timestamp := t1, retryCount := 0
          lastAttemptTime := none, error := none } := rfl
  have hty1 : (if (getForm st.forms f1.id).isSome then SyncOp.update
      else SyncOp.create) = SyncOp.update := by
    rw [hx1, hexist]
    rfl
  have hf1 : (saveFormLocally st f1 t1).forms =
      putForm st.forms
        { form := f1, localId := f1.id
          remoteId := (getForm st.forms f1.id).bind (fun e => e.remoteId)
          synced := false, syncedAt := none, localUpdatedAt := t1 } := rfl
  have hex2 : (getForm (saveFormLocally st f1 t1).forms f2.id).isSome = true := by
    rw [hf1, hx2, ← hx1]
    rw [getForm_putForm st.forms _]
    rfl
  have hq2 : (saveFormLocally (saveFormLocally st f1 t1) f2 t2).queue =
      addToSyncQueue (saveFormLocally st f1 t1).queue
        { type := if (getForm (saveFormLocally st f1 t1).forms f2.id).isSome
                  then SyncOp.update else SyncOp.create
          localId := f2.id, payload := SyncPayload.form f2
          timestamp := t2, retryCount := 0
          lastAttemptTime := none, error := none } := rfl
  rw [hq2]
  have hty2 : (if (getForm (saveFormLocally st f1 t1).forms f2.id).isSome
      then SyncOp.update else SyncOp.create) = SyncOp.update := by
    rw [hex2]
    rfl
  rw [hty2, hx2]
  have hc2 : ∀ i ∈ (saveFormLocally st f1 t1).queue.items,
      i.localId = x → i.type = SyncOp.update := by
    rw [hq1]
    unfold addToSyncQueue
    intro i hi hil
    rcases List.mem_append.1 hi with hi | hi
    · exfalso
      have hmem := (List.mem_filter.1 hi).1
      exact hclean i hmem hil
    · have : i = freshQueueItem st.queue
          { type := if (getForm st.forms f1.id).isSome then SyncOp.update
                    else SyncOp.create
            localId := f1.id, payload := SyncPayload.form f1
            timestamp := t1, retryCount := 0
            lastAttemptTime := none, error := none } := by
        simpa [freshQueueItem] using hi
      rw [this]
      show (if (getForm st.forms f1.id).isSome then SyncOp.update
        else SyncOp.create) = SyncOp.update
      exact hty1
  have hres : (addToSyncQueue (saveFormLocally st f1 t1).queue
      { type := SyncOp.update, localId := x, payload := SyncPayload.form f2
        timestamp := t2, retryCount := 0
        lastAttemptTime := none, error := none }).items.filter
        (fun i => i.localId = x) =
      [freshQueueItem (saveFormLocally st f1 t1).queue
        { type := SyncOp.update, localId := x, payload := SyncPayload.form f2
          timestamp := t2, retryCount := 0
          lastAttemptTime := none, error := none }] :=
    addToSyncQueue_entriesFor (saveFormLocally st f1 t1).queue
      { type := SyncOp.update, localId := x
        payload := SyncPayload.form f2, timestamp := t2, retryCount := 0
        lastAttemptTime := none, error := none }
      (by intro i hi hil; exact hc2 i hi hil)
  rw [hres]
  rfl

theorem enqueue_update_twice_dedup_witness :
    ((saveFormLocally (saveFormLocally ⟨[basePendingLocal], ⟨[], 0⟩⟩ baseForm 10)
        { baseForm with consignerName := "Lamp 2" } 20).queue.items.filter
        (fun i => i.localId = "a1")).map (fun i => (i.type, i.payload)) =
      [(SyncOp.update, SyncPayload.form { baseForm with consignerName := "Lamp 2" })] :=
  enqueue_update_twice_dedup ⟨[basePendingLocal], ⟨[], 0⟩⟩ baseForm
    { baseForm with consignerName := "Lamp 2" } "a1" 10 20 rfl rfl (by decide)
    (by intro i hi; simp at hi)

/-- A concrete pending UPDATE queue entry for the sample record. -/
def updEntry : SyncQueueItem :=
  { id := 1, type := SyncOp.update, localId := "a1"
    payload := SyncPayload.form baseForm, timestamp := 5, retryCount := 0
    lastAttemptTime := none, error := none }

/-- C3 fails as stated: deleting a record whose UPDATE entry is still queued
leaves TWO queue entries for the identifier (the pending update and the new
delete) — the delete does not supersede the pending create/update entry. -/
theorem delete_supersede_cex :
    (((deleteFormLocally ⟨[basePendingLocal], ⟨[updEntry], 2⟩⟩ "a1" 30).queue.items.filter
        (fun i => i.localId = "a1")).map (fun i => i.type) =
      [SyncOp.update, SyncOp.delete]) ∧
    ¬ ((deleteFormLocally ⟨[basePendingLocal], ⟨[updEntry], 2⟩⟩ "a1" 30).queue.items.filter
        (fun i => i.localId = "a1")).length = 1 := by
  constructor
  · decide
  · decide

/-- C3 (amended): deleting a record removes it from the forms store but leaves
any pending create/update entry for it in the queue; a DELETE entry is
enqueued (after the surviving entry) only when the record carried a remote id,
and no DELETE entry is enqueued at all for a never-synced record. -/
theorem deleteFormLocally_supersede_amended (st : DbState) (fid : String)
    (t : Int) (e : LocalForm) (u : SyncQueueItem)
    (hget : getForm st.forms fid = some e)
    (hu : st.queue.items.filter (fun i => i.localId = fid) = [u])
    (hut : u.type = SyncOp.create ∨ u.type = SyncOp.update) :
    getForm (deleteFormLocally st fid t).forms fid = none ∧
    ((deleteFormLocally st fid t).queue.items.filter
        (fun i => i.localId = fid)).map (fun i => (i.type, i.payload)) =
      (match e.remoteId with
       | some rid =>
          [(u.type, u.payload), (SyncOp.delete, SyncPayload.del rid)]
       | none => [(u.type, u.payload)]) := by
  have hund : ¬ u.type = SyncOp.delete := by
    rcases hut with h | h
    · rw [h]
      intro hc
      cases hc
    · rw [h]
      intro hc
      cases hc
  cases hrid : e.remoteId with
  | none =>
      unfold deleteFormLocally
      simp only [hget, hrid]
      constructor
      · exact getForm_filter_self st.forms fid
      · rw [hu]
        rfl
  | some rid =>
      unfold deleteFormLocally
      simp only [hget, hrid]
      constructor
      · exact getForm_filter_self st.forms fid
      · have hres : (addToSyncQueue st.queue
            { type := SyncOp.delete, localId := fid
              payload := SyncPayload.del rid, timestamp := t, retryCount := 0
              lastAttemptTime := none, error := none }).items.filter
              (fun i => i.localId = fid) =
            st.queue.items.filter (fun i => i.localId = fid) ++
              [freshQueueItem st.queue
                { type := SyncOp.delete, localId := fid
                  payload := SyncPayload.del rid, timestamp := t
                  retryCount := 0, lastAttemptTime := none, error := none }] :=
          addToSyncQueue_entriesFor_keep st.queue
            { type := SyncOp.delete, localId := fid
              payload := SyncPayload.del rid, timestamp := t, retryCount := 0
              lastAttemptTime := none, error := none }
            (by
              intro i hi hil htype
              have hmem : i ∈ st.queue.items.filter (fun j => j.localId = fid) := by
                rw [List.mem_filter]
                exact ⟨hi, by simp [hil]⟩
              rw [hu] at hmem
              have hiu : i = u := by simpa using hmem
              rw [hiu] at htype
              exact hund htype)
        rw [hres, hu]
        rfl

theorem deleteFormLocally_supersede_amended_witness :
    getForm (deleteFormLocally ⟨[basePendingLocal], ⟨[updEntry], 2⟩⟩ "a1" 30).forms
        "a1" = none ∧
    ((deleteFormLocally ⟨[basePendingLocal], ⟨[updEntry], 2⟩⟩ "a1" 30).queue.items.filter
        (fun i => i.localId = "a1")).map (fun i => (i.type, i.payload)) =
      [(SyncOp.update, SyncPayload.form baseForm),
       (SyncOp.delete, SyncPayload.del "a1")] := by
  have h := deleteFormLocally_supersede_amended ⟨[basePendingLocal], ⟨[updEntry], 2⟩⟩
    "a1" 30 basePendingLocal updEntry (by decide) (by decide) (Or.inr rfl)
  exact ⟨h.1, by simpa using h.2⟩

/-! ## Drain-pass lemmas -/

theorem insertTs_perm (x : SyncQueueItem) (l : List SyncQueueItem) :
    List.Perm (insertTs x l) (x :: l) := by
  induction l with
  | nil => exact List.Perm.refl [x]
  | cons y ys ih =>
      unfold insertTs
      by_cases h : tsLe x y
      · simp only [h, if_true]
        exact List.Perm.refl _
      · simp only [h, if_false]
        exact List.Perm.trans (List.Perm.cons y ih) (List.Perm.swap x y ys)

theorem getPendingSyncItems_perm (q : Queue) :
    List.Perm (getPendingSyncItems q) q.items := by
  unfold getPendingSyncItems
  induction q.items with
  | nil => exact List.Perm.refl []
  | cons x xs ih =>
      exact List.Perm.trans (insertTs_perm x (xs.foldr insertTs []))
        (List.Perm.cons x ih)

theorem foldl_preserve {α β : Type} (f : β → α → β) (P : β → Prop) :
    ∀ (L : List α) (b : β), P b → (∀ a ∈ L, ∀ c, P c → P (f c a)) →
      P (L.foldl f b) := by
  intro L
  induction L with
  | nil =>
      intro b hb _
      exact hb
  | cons a L ih =>
      intro b hb hstep
      exact ih (f b a) (hstep a (List.mem_cons_self a L) b hb)
        (fun a' ha' c hc => hstep a' (List.mem_cons_of_mem a ha') c hc)

theorem incrementSyncItemRetry_ids (q : Queue) (id : Nat) (err : String)
    (now : Int) :
    ∀ j ∈ (incrementSyncItemRetry q id err now).items,
      ∃ j' ∈ q.items, j.id = j'.id := by
  intro j hj
  unfold incrementSyncItemRetry at hj
  simp only [List.mem_map] at hj
  obtain ⟨j', hj', hEq⟩ := hj
  refine ⟨j', hj', ?_⟩
  by_cases h : j'.id = id
  · rw [← hEq]
    simp [h]
  · rw [← hEq]
    simp [h]

theorem incrementSyncItemRetry_keeps (q : Queue) (id : Nat) (err : String)
    (now : Int) (j : SyncQueueItem) (hj : j ∈ q.items) (hne : j.id ≠ id) :
    j ∈ (incrementSyncItemRetry q id err now).items := by
  unfold incrementSyncItemRetry
  simp only [List.mem_map]
  exact ⟨j, hj, by simp [hne]⟩

theorem processSyncItem_queue_cases (tr : Transmit) (db : DbState)
    (item : SyncQueueItem) (now : Int) :
    (processSyncItem tr db item now).1.queue = db.queue ∨
    ∃ err, (processSyncItem tr db item now).1.queue =
      incrementSyncItemRetry db.queue item.id err now := by
  unfold processSyncItem
  split
  · split
    · split
      · rename_i err heq
        exact Or.inr ⟨err, rfl⟩
      · split
        · exact Or.inl rfl
        · rename_i err heq
          exact Or.inr ⟨err, rfl⟩
    · exact Or.inr ⟨"Missing form ID", rfl⟩
  · split
    · split
      · rename_i err heq
        exact Or.inr ⟨err, rfl⟩
      · split
        · exact Or.inl rfl
        · rename_i err heq
          exact Or.inr ⟨err, rfl⟩
    · exact Or.inr ⟨"Missing form ID", rfl⟩
  · split
    · exact Or.inl rfl
    · rename_i err heq
      exact Or.inr ⟨err, rfl⟩

theorem processSyncItem_queue_ids (tr : Transmit) (db : DbState)
    (item : SyncQueueItem) (now : Int) :
    ∀ j ∈ (processSyncItem tr db item now).1.queue.items,
      ∃ j' ∈ db.queue.items, j.id = j'.id := by
  intro j hj
  rcases processSyncItem_queue_cases tr db item now with h | ⟨err, h⟩
  · rw [h] at hj
    exact ⟨j, hj, rfl⟩
  · rw [h] at hj
    exact incrementSyncItemRetry_ids db.queue item.id err now j hj

theorem processSyncItem_queue_keeps (tr : Transmit) (db : DbState)
    (item : SyncQueueItem) (now : Int) (j : SyncQueueItem)
    (hj : j ∈ db.queue.items) (hne : j.id ≠ item.id) :
    j ∈ (processSyncItem tr db item now).1.queue.items := by
  rcases processSyncItem_queue_cases tr db item now with h | ⟨err, h⟩
  · rw [h]
    exact hj
  · rw [h]
    exact incrementSyncItemRetry_keeps db.queue item.id err now j hj hne

/-- The retry cap forces the backoff check to refuse the entry. -/
theorem shouldRetryItem_capped (now : Int) (item : SyncQueueItem)
    (h : item.retryCount ≥ 5) : shouldRetryItem now item = false := by
  unfold shouldRetryItem
  simp [h]

theorem syncPassStep_attempted_skip (tr : Transmit) (now : Int)
    (acc : PassResult) (x : SyncQueueItem)
    (h : shouldRetryItem now x = false) :
    (syncPassStep tr now acc x).attempted = acc.attempted := by
  unfold syncPassStep
  rw [h]
  by_cases hc : x.retryCount ≥ 5
  · simp [hc]
  · simp [hc]

theorem syncPassStep_attempted_sub (tr : Transmit) (now : Int)
    (acc : PassResult) (x : SyncQueueItem) :
    ∀ a ∈ (syncPassStep tr now acc x).attempted,
      a ∈ acc.attempted ∨ a = x.id := by
  intro a ha
  unfold syncPassStep at ha
  by_cases h : shouldRetryItem now x = true
  · rw [if_pos h] at ha
    by_cases hb : (processSyncItem tr acc.db x now).2 = true
    · rw [if_pos hb] at ha
      simpa using ha
    · rw [if_neg hb] at ha
      simpa using ha
  · rw [if_neg h] at ha
    by_cases hc : x.retryCount ≥ 5
    · rw [if_pos hc] at ha
      exact Or.inl ha
    · rw [if_neg hc] at ha
      exact Or.inl ha

theorem syncPassStep_attempted_mono (tr : Transmit) (now : Int)
    (acc : PassResult) (x : SyncQueueItem) :
    ∀ a ∈ acc.attempted, a ∈ (syncPassStep tr now acc x).attempted := by
  intro a ha
  unfold syncPassStep
  by_cases h : shouldRetryItem now x = true
  · rw [if_pos h]
    by_cases hb : (processSyncItem tr acc.db x now).2 = true
    · rw [if_pos hb]
      simp [ha]
    · rw [if_neg hb]
      simp [ha]
  · rw [if_neg h]
    by_cases hc : x.retryCount ≥ 5
    · rw [if_pos hc]
      exact ha
    · rw [if_neg hc]
      exact ha

theorem syncPassStep_attempted_self (tr : Transmit) (now : Int)
    (acc : PassResult) (x : SyncQueueItem)
    (h : shouldRetryItem now x = true) :
    x.id ∈ (syncPassStep tr now acc x).attempted := by
  unfold syncPassStep
  rw [if_pos h]
  by_cases hb : (processSyncItem tr acc.db x now).2 = true
  · rw [if_pos hb]
    simp
  · rw [if_neg hb]
    simp

theorem syncPassStep_queue_ids (tr : Transmit) (now : Int) (acc : PassResult)
    (x : SyncQueueItem) (a : Nat)
    (h : ∀ j ∈ acc.db.queue.items, j.id ≠ a) :
    ∀ j ∈ (syncPassStep tr now acc x).db.queue.items, j.id ≠ a := by
  intro j hj
  unfold syncPassStep at hj
  by_cases hs : shouldRetryItem now x = true
  · rw [if_pos hs] at hj
    by_cases hb : (processSyncItem tr acc.db x now).2 = true
    · rw [if_pos hb] at hj
      simp only [removeSyncQueueItem, List.mem_filter] at hj
      obtain ⟨j', hj', hid⟩ :=
        processSyncItem_queue_ids tr acc.db x now j hj.1
      rw [hid]
      exact h j' hj'
    · rw [if_neg hb] at hj
      obtain ⟨j', hj', hid⟩ :=
        processSyncItem_queue_ids tr acc.db x now j hj
      rw [hid]
      exact h j' hj'
  · rw [if_neg hs] at hj
    by_cases hc : x.retryCount ≥ 5
    · rw [if_pos hc] at hj
      simp only [removeSyncQueueItem, List.mem_filter] at hj
      exact h j hj.1
    · rw [if_neg hc] at hj
      exact h j hj

theorem syncPassStep_keeps_item (tr : Transmit) (now : Int) (acc : PassResult)
    (x item : SyncQueueItem) (hmem : item ∈ acc.db.queue.items)
    (hcase : x.id ≠ item.id ∨
      (shouldRetryItem now x = false ∧ x.retryCount < 5)) :
    item ∈ (syncPassStep tr now acc x).db.queue.items := by
  unfold syncPassStep
  rcases hcase with hne | ⟨hsr, hlt⟩
  · have hne1 : item.id ≠ x.id := fun hc => hne hc.symm
    by_cases hs : shouldRetryItem now x = true
    · rw [if_pos hs]
      have hin : item ∈ (processSyncItem tr acc.db x now).1.queue.items :=
        processSyncItem_queue_keeps tr acc.db x now item hmem hne1
      by_cases hb : (processSyncItem tr acc.db x now).2 = true
      · rw [if_pos hb]
        simp only [removeSyncQueueItem, List.mem_filter]
        exact ⟨hin, by simpa using hne1⟩
      · rw [if_neg hb]
        exact hin
    · rw [if_neg hs]
      by_cases hc : x.retryCount ≥ 5
      · rw [if_pos hc]
        simp only [removeSyncQueueItem, List.mem_filter]
        exact ⟨hmem, by simpa using hne1⟩
      · rw [if_neg hc]
        exact hmem
  · rw [if_neg (by rw [hsr]; exact Bool.false_ne_true)]
    rw [if_neg (by omega)]
    exact hmem

theorem syncPassStep_drops_capped (tr : Transmit) (now : Int)
    (acc : PassResult) (x : SyncQueueItem) (h : x.retryCount ≥ 5) :
    ∀ j ∈ (syncPassStep tr now acc x).db.queue.items, j.id ≠ x.id := by
  intro j hj
  unfold syncPassStep at hj
  rw [shouldRetryItem_capped now x h] at hj
  rw [if_neg Bool.false_ne_true] at hj
  rw [if_pos h] at hj
  simp only [removeSyncQueueItem, List.mem_filter] at hj
  simpa using hj.2

/-! ## Claims about the Push Engine -/

theorem processSyncQueue_online (tr : Transmit) (db : DbState) (now : Int) :
    processSyncQueue true true tr db now = runSyncPass tr db now := by
  unfold processSyncQueue
  simp

/-- C5: a queue entry whose retry counter has reached the maximum of 5 is
removed permanently by a drain pass — afterwards no entry with its key appears
in the pending listing — and it is never handed to the transmission step. -/
theorem retry_cap_discard (db : DbState) (tr : Transmit) (now : Int)
    (item : SyncQueueItem) (hmem : item ∈ db.queue.items)
    (hcap : item.retryCount ≥ 5)
    (huniq : ∀ j ∈ db.queue.items, j.id = item.id → j = item) :
    (∀ j ∈ getPendingSyncItems (processSyncQueue true true tr db now).db.queue,
        j.id ≠ item.id) ∧
    item.id ∉ (processSyncQueue true true tr db now).attempted := by
  rw [processSyncQueue_online]
  have hperm := getPendingSyncItems_perm db.queue
  have hmemL : item ∈ getPendingSyncItems db.queue := hperm.mem_iff.2 hmem
  have huniqL : ∀ j ∈ getPendingSyncItems db.queue, j.id = item.id → j = item :=
    fun j hj => huniq j (hperm.mem_iff.1 hj)
  obtain ⟨L1, L2, hsplit⟩ := List.append_of_mem hmemL
  have hsub1 : ∀ a ∈ L1, a ∈ getPendingSyncItems db.queue := by
    intro a ha
    rw [hsplit]
    exact List.mem_append_left _ ha
  have hsub2 : ∀ a ∈ L2, a ∈ getPendingSyncItems db.queue := by
    intro a ha
    rw [hsplit]
    exact List.mem_append_right _ (List.mem_cons_of_mem item ha)
  have hsr : shouldRetryItem now item = false := shouldRetryItem_capped now item hcap
  unfold runSyncPass
  rw [hsplit, List.foldl_append, List.foldl_cons]
  have h1 : item.id ∉
      (L1.foldl (syncPassStep tr now)
        { db := db, success := 0, failed := 0, attempted := [] }).attempted := by
    apply foldl_preserve (syncPassStep tr now)
      (fun r => item.id ∉ r.attempted) L1 _ (by simp)
    intro a ha c hc hmem'
    by_cases hid : a.id = item.id
    · have ha2 : a = item := huniqL a (hsub1 a ha) hid
      rw [ha2, syncPassStep_attempted_skip tr now c item hsr] at hmem'
      exact hc hmem'
    · rcases syncPassStep_attempted_sub tr now c a item.id hmem' with h | h
      · exact hc h
      · exact hid h.symm
  have h2q := syncPassStep_drops_capped tr now
    (L1.foldl (syncPassStep tr now)
      { db := db, success := 0, failed := 0, attempted := [] }) item hcap
  have h2a : item.id ∉
      (syncPassStep tr now
        (L1.foldl (syncPassStep tr now)
          { db := db, success := 0, failed := 0, attempted := [] }) item).attempted := by
    rw [syncPassStep_attempted_skip tr now _ item hsr]
    exact h1
  have h3 := foldl_preserve (syncPassStep tr now)
    (fun r => (∀ j ∈ r.db.queue.items, j.id ≠ item.id) ∧
      item.id ∉ r.attempted) L2
    (syncPassStep tr now
      (L1.foldl (syncPassStep tr now)
        { db := db, success := 0, failed := 0, attempted := [] }) item)
    ⟨h2q, h2a⟩
    (by
      intro a ha c hc
      constructor
      · exact syncPassStep_queue_ids tr now c a item.id hc.1
      · intro hmem'
        by_cases hid : a.id = item.id
        · have ha2 : a = item := huniqL a (hsub2 a ha) hid
          rw [ha2, syncPassStep_attempted_skip tr now c item hsr] at hmem'
          exact hc.2 hmem'
        · rcases syncPassStep_attempted_sub tr now c a item.id hmem' with h | h
          · exact hc.2 h
          · exact hid h.symm)
  constructor
  · intro j hj
    exact h3.1 j ((getPendingSyncItems_perm _).mem_iff.1 hj)
  · exact h3.2

/-- The concrete capped entry and queue for the C5 witness. -/
def cappedItem : SyncQueueItem :=
  { id := 9, type := SyncOp.update, localId := "a1"
    payload := SyncPayload.form baseForm, timestamp := 3, retryCount := 5
    lastAttemptTime := some 0, error := some "network down" }

theorem retry_cap_discard_witness :
    cappedItem.id ∉
      (processSyncQueue true true (fun _ => none)
        ⟨[], ⟨[cappedItem], 10⟩⟩ 0).attempted :=
  (retry_cap_discard ⟨[], ⟨[cappedItem], 10⟩⟩ (fun _ => none) 0 cappedItem
    (by decide) (by decide) (by decide)).2

/-- C6: a previously attempted entry with retry count below the cap is not
retransmitted by a drain pass while the elapsed time since its last attempt is
below the backoff delay for its retry count — the entry stays in the queue and
is not handed to transmission — and once that delay has elapsed the backoff
check declares it eligible again and a drain pass does transmit it. -/
theorem backoff_window (db : DbState) (tr : Transmit) (now t : Int)
    (item : SyncQueueItem) (hmem : item ∈ db.queue.items)
    (hretry : item.retryCount < 5)
    (hla : item.lastAttemptTime = some t)
    (huniq : ∀ j ∈ db.queue.items, j.id = item.id → j = item) :
    (now - t < backoffTime item.retryCount →
       item ∈ (processSyncQueue true true tr db now).db.queue.items ∧
       item.id ∉ (processSyncQueue true true tr db now).attempted) ∧
    (now - t ≥ backoffTime item.retryCount →
       shouldRetryItem now item = true ∧
       item.id ∈ (processSyncQueue true true tr db now).attempted) := by
  rw [processSyncQueue_online]
  have hperm := getPendingSyncItems_perm db.queue
  have hmemL : item ∈ getPendingSyncItems db.queue := hperm.mem_iff.2 hmem
  have huniqL : ∀ j ∈ getPendingSyncItems db.queue, j.id = item.id → j = item :=
    fun j hj => huniq j (hperm.mem_iff.1 hj)
  constructor
  · intro hwin
    have hsr : shouldRetryItem now item = false := by
      unfold shouldRetryItem
      rw [if_neg (by omega), hla]
      show (if now - t < backoffTime item.retryCount then false else true) = false
      rw [if_pos hwin]
    have h := foldl_preserve (syncPassStep tr now)
      (fun r => item ∈ r.db.queue.items ∧ item.id ∉ r.attempted)
      (getPendingSyncItems db.queue)
      { db := db, success := 0, failed := 0, attempted := [] }
      ⟨hmem, by simp⟩
      (by
        intro a ha c hc
        constructor
        · by_cases hid : a.id = item.id
          · have ha2 : a = item := huniqL a ha hid
            rw [ha2]
            exact syncPassStep_keeps_item tr now c item item hc.1
              (Or.inr ⟨hsr, hretry⟩)
          · exact syncPassStep_keeps_item tr now c a item hc.1 (Or.inl hid)
        · intro hmem'
          by_cases hid : a.id = item.id
          · have ha2 : a = item := huniqL a ha hid
            rw [ha2, syncPassStep_attempted_skip tr now c item hsr] at hmem'
            exact hc.2 hmem'
          · rcases syncPassStep_attempted_sub tr now c a item.id hmem' with h | h
            · exact hc.2 h
            · exact hid h.symm)
    exact h
  · intro hel
    have hsr : shouldRetryItem now item = true := by
      unfold shouldRetryItem
      rw [if_neg (by omega), hla]
      show (if now - t < backoffTime item.retryCount then false else true) = true
      rw [if_neg (by omega)]
    refine ⟨hsr, ?_⟩
    obtain ⟨L1, L2, hsplit⟩ := List.append_of_mem hmemL
    unfold runSyncPass
    rw [hsplit, List.foldl_append, List.foldl_cons]
    have h2 : item.id ∈
        (syncPassStep tr now
          (L1.foldl (syncPassStep tr now)
            { db := db, success := 0, failed := 0, attempted := [] }) item).attempted :=
      syncPassStep_attempted_self tr now _ item hsr
    exact foldl_preserve (syncPassStep tr now)
      (fun r => item.id ∈ r.attempted) L2 _ h2
      (fun a _ c hc => syncPassStep_attempted_mono tr now c a item.id hc)

/-- The concrete failed-once entry for the C6 witness. -/
def backedOffItem : SyncQueueItem :=
  { id := 4, type := SyncOp.update, localId := "a1"
    payload := SyncPayload.form baseForm, timestamp := 3, retryCount := 1
    lastAttemptTime := some 0, error := some "network down" }

theorem backoff_window_witness :
    backedOffItem ∈
      (processSyncQueue true true (fun _ => none)
        ⟨[], ⟨[backedOffItem], 10⟩⟩ 100).db.queue.items ∧
    backedOffItem.id ∉
      (processSyncQueue true true (fun _ => none)
        ⟨[], ⟨[backedOffItem], 10⟩⟩ 100).attempted :=
  (backoff_window ⟨[], ⟨[backedOffItem], 10⟩⟩ (fun _ => none) 100 0
    backedOffItem (by decide) (by decide) (by decide) (by decide)).1 (by decide)

/-! ## Claims about the status feed -/

/-- A failed DELETE entry sitting out its backoff window: its record is gone
from the forms store, so it is counted by the queue but not by
`getUnsyncedCount`. -/
def staleDeleteItem : SyncQueueItem :=
  { id := 1, type := SyncOp.delete, localId := "x1"
    payload := SyncPayload.del "x1", timestamp := 0, retryCount := 1
    lastAttemptTime := some 0, error := some "network down" }

/-- C7 fails as stated: after this drain pass the queue still holds one entry
(the backed-off delete) while the status feed's pending count — which counts
unsynced local records, not queue entries — is 0. -/
theorem pendingCount_ne_queue_length_cex :
    ¬ ((getCurrentSyncStatus true false none none
          (processSyncQueue true true (fun _ => none)
            ⟨[], ⟨[staleDeleteItem], 2⟩⟩ 100).db.forms).pendingCount =
        (processSyncQueue true true (fun _ => none)
          ⟨[], ⟨[staleDeleteItem], 2⟩⟩ 100).db.queue.items.length) ∧
    (getCurrentSyncStatus true false none none
        (processSyncQueue true true (fun _ => none)
          ⟨[], ⟨[staleDeleteItem], 2⟩⟩ 100).db.forms).pendingCount = 0 ∧
    (processSyncQueue true true (fun _ => none)
        ⟨[], ⟨[staleDeleteItem], 2⟩⟩ 100).db.queue.items.length = 1 := by
  refine ⟨?_, ?_, ?_⟩
  · decide
  · decide
  · decide

/-- C7 (amended): after every drain pass the status feed's pending count
equals the number of local records still marked unsynced (what
`getUnsyncedCount` counts), which need not equal the number of entries
remaining in the sync queue. -/
theorem pendingCount_counts_unsynced (tr : Transmit) (db : DbState) (now : Int)
    (online syncing : Bool) (lastSync : Option Int) (lastErr : Option String) :
    (getCurrentSyncStatus online syncing lastSync lastErr
        (processSyncQueue true true tr db now).db.forms).pendingCount =
      ((processSyncQueue true true tr db now).db.forms.filter
        (fun f => f.synced = false)).length := rfl

/-! ## Claims about the Record CRUD API -/

/-- C8 fails as stated: `localFormToIntakeForm` omits `signatureDate`, so a
record saved with a signature date loads back without it (and equals the
record with the date cleared). -/
theorem save_load_drops_signatureDate_cex :
    loadForm (saveForm ⟨[], ⟨[], 0⟩⟩
        { baseForm with signatureDate := some "2024-01-01" } 5) "a1" ≠
      some { baseForm with signatureDate := some "2024-01-01" } ∧
    loadForm (saveForm ⟨[], ⟨[], 0⟩⟩
        { baseForm with signatureDate := some "2024-01-01" } 5) "a1" =
      some baseForm := by
  constructor
  · decide
  · decide

/-- C8 (amended): saving a record and immediately loading it by its identifier
(before any network activity) returns the record with every field intact
except `signatureDate`, which `loadForm` leaves unset; in particular the
round trip is deep-equality whenever the record carries no signature date. -/
theorem save_load_roundtrip (st : DbState) (form : IntakeForm) (now : Int) :
    loadForm (saveForm st form now) form.id =
      some { form with signatureDate := none } := by
  have h : getForm (putForm st.forms
      { form := form, localId := form.id
        remoteId := (getForm st.forms form.id).bind (fun e => e.remoteId)
        synced := false, syncedAt := none, localUpdatedAt := now }) form.id =
      some { form := form, localId := form.id
             remoteId := (getForm st.forms form.id).bind (fun e => e.remoteId)
             synced := false, syncedAt := none, localUpdatedAt := now } :=
    getForm_putForm st.forms _
  show (getForm (putForm st.forms
      { form := form, localId := form.id
        remoteId := (getForm st.forms form.id).bind (fun e => e.remoteId)
        synced := false, syncedAt := none, localUpdatedAt := now }) form.id).map
      localFormToIntakeForm = some { form with signatureDate := none }
  rw [h]
  rfl

/-! ## Claims about the Record Codec -/

/-- C9 fails as stated: a record whose consigner number is the empty string is
pushed as a SQL `null` (`x || null`) and maps back as absent (`x ||
undefined`), so the round trip is not deep-equality on that field; it lands on
the normalised record instead. -/
theorem codec_roundtrip_cex :
    mapRemoteToLocal (serverComplete (toRemoteShape
        { baseForm with consignerNumber := some "" }) 0 90) ≠
      { baseForm with consignerNumber := some "" } ∧
    mapRemoteToLocal (serverComplete (toRemoteShape
        { baseForm with consignerNumber := some "" }) 0 90) = baseForm := by
  constructor
  · decide
  · decide

theorem orNullStr_eq_self (s : Option String) (hs : s ≠ some "") :
    orNullStr s = s := by
  cases s with
  | none => rfl
  | some v =>
      have hv : ¬ v = "" := fun hc => hs (by rw [hc])
      unfold orNullStr
      show (if v = "" then none else some v) = some v
      rw [if_neg hv]

theorem jsOr_empty (a : String) : jsOr a "" = a := by
  unfold jsOr
  by_cases h : a = ""
  · rw [if_pos h, h]
  · rw [if_neg h]

/-- C9 (amended): the codec round trip restores every client-owned field of
the record provided no optional string field holds the empty string (the `||`
defaults collapse empty strings to the absent value, never to an error);
`signatureDate` has no remote column, and the two last-modified/created
timestamps are the ones the server row carries. -/
theorem codec_roundtrip_amended (form : IntakeForm)
    (h1 : form.consignerNumber ≠ some "")
    (h2 : form.consignerAddress ≠ some "")
    (h3 : form.consignerPhone ≠ some "")
    (h4 : form.consignerEmail ≠ some "")
    (h5 : form.signatureData ≠ some "")
    (h6 : form.initials1 ≠ some "")
    (h7 : form.initials2 ≠ some "")
    (h8 : form.initials3 ≠ some "")
    (h9 : form.acceptedBy ≠ some "")
    (h10 : form.signatureDate = none) :
    mapRemoteToLocal (serverComplete (toRemoteShape form)
        form.createdAt form.updatedAt) = form := by
  unfold mapRemoteToLocal serverComplete toRemoteShape
  simp only [orNullStr_eq_self form.consignerNumber h1,
    orNullStr_eq_self form.consignerAddress h2,
    orNullStr_eq_self form.consignerPhone h3,
    orNullStr_eq_self form.consignerEmail h4,
    orNullStr_eq_self form.signatureData h5,
    orNullStr_eq_self form.initials1 h6,
    orNullStr_eq_self form.initials2 h7,
    orNullStr_eq_self form.initials3 h8,
    orNullStr_eq_self form.acceptedBy h9,
    jsOr_empty]
  rw [← h10]

theorem codec_roundtrip_amended_witness :
    mapRemoteToLocal (serverComplete (toRemoteShape baseForm) 0 90) = baseForm :=
  codec_roundtrip_amended baseForm (by decide) (by decide) (by decide)
    (by decide) (by decide) (by decide) (by decide) (by decide) (by decide)
    (by decide)

end Intake
